import Mathlib

/-!
Verification development for the Box document loader (document_loaders.ts,
utilities.ts).  The TypeScript code is shallowly embedded: every remote call
(file metadata, representation listing, info URL fetch, content URL fetch) is
drawn from an oracle environment, consumed in call order; a thrown exception
is modelled as an `Except.error`; JavaScript string truthiness (undefined or
the empty string count as false) is modelled explicitly.  Strings are treated
as sequences of characters (JavaScript counts UTF-16 units instead, which
agrees on the inputs considered); lower-casing, trimming and first-occurrence
replacement are given structurally reducible character-list definitions.
-/

namespace LcBox

/-- Result of the metadata call `client.files.getFileById` (fields used by the
loader; each field optional, as in the `fileInfo.name || ''` accesses). -/
structure FileInfo where
  name : Option String
  extension : Option String
  size : Option Nat
  createdAt : Option String
  modifiedAt : Option String
  deriving DecidableEq

/-- `status` object of a representation entry. -/
structure RepStatus where
  state : Option String
  message : Option String
  deriving DecidableEq

/-- `info` object of a representation entry. -/
structure RepInfo where
  url : Option String
  deriving DecidableEq

/-- One entry of `representations.entries`. -/
structure RepEntry where
  representation : String
  status : Option RepStatus
  info : Option RepInfo
  deriving DecidableEq

/-- The `representations` field of the listing response. -/
structure Representations where
  entries : Option (List RepEntry)
  deriving DecidableEq

/-- Response of the listing call (x-rep-hints variant of getFileById). -/
structure FileWithReps where
  representations : Option Representations
  deriving DecidableEq

/-- A thrown error from the SDK or fetch (only fields the loader inspects). -/
structure BoxError where
  statusCode : Option Nat
  deriving DecidableEq

/-- Body of the info URL response: JSON.parse either throws or yields an
object whose optional field is `content.url_template`. -/
inductive InfoBody where
  | malformed
  | parsed (urlTemplate : Option String)
  deriving DecidableEq

/-- Response of the info URL fetch. -/
structure InfoResponse where
  status : Nat
  body : InfoBody
  deriving DecidableEq

/-- Response of the content URL fetch. -/
structure ContentResponse where
  status : Nat
  body : String
  deriving DecidableEq

/-- Oracle environment for one file: the metadata call outcome and the
sequences of responses to listing calls, info URL fetches and content URL
fetches, each consumed in call order. -/
structure Env where
  fileInfo : Except BoxError FileInfo
  listings : Nat → Except BoxError FileWithReps
  infoFetches : Nat → Except BoxError InfoResponse
  contentFetches : Nat → Except BoxError ContentResponse

/-- Metadata of the emitted Document. -/
structure DocMetadata where
  source : String
  file_id : String
  file_name : String
  file_type : String
  file_size : Nat
  created_at : String
  modified_at : String
  box_url : String
  deriving DecidableEq

/-- An emitted Document. -/
structure Document where
  pageContent : String
  metadata : DocMetadata
  deriving DecidableEq

/-- Call ledger: number of listing calls, info URL fetches, content URL
fetches issued, and the sleep delays (ms) in chronological order. -/
structure Ledger where
  li : Nat
  ii : Nat
  ci : Nat
  delays : List Nat
  deriving DecidableEq

/-- `toLowerCase`, character by character (structurally reducible). -/
def jsToLower (s : String) : String :=
  String.mk (s.data.map Char.toLower)

/-- Whitespace trimmed by JavaScript `trim` (ASCII part). -/
def jsWhitespace (c : Char) : Bool :=
  c == ' ' || c == '\t' || c == '\n' || c == '\r' || c == '\x0b' || c == '\x0c'

/-- JavaScript `String.prototype.trim` (ASCII whitespace). -/
def jsTrim (s : String) : String :=
  String.mk (((s.data.dropWhile jsWhitespace).reverse.dropWhile
    jsWhitespace).reverse)

/-- Last segment of the list starting at the final dot, if any. -/
def suffixFromLastDot : List Char → Option (List Char)
  | [] => none
  | c :: rest =>
    match suffixFromLastDot rest with
    | some s => some s
    | none => if c = '.' then some (c :: rest) else none

/-- `filename.toLowerCase().substring(filename.lastIndexOf('.'))` as used in
utilities.ts: with no dot, lastIndexOf is -1 and substring yields the whole
lowercased name. -/
def fileExtension (filename : String) : String :=
  let lower := jsToLower filename
  match suffixFromLastDot lower.data with
  | some s => String.mk s
  | none => lower

/-- Image extension list of utilities.ts. -/
def imageExtensions : List String :=
  [".gif", ".jpeg", ".jpg", ".png", ".svg",
   ".bmp", ".eps", ".tif", ".tiff", ".tga",
   ".arw", ".cr2", ".dng", ".nef",
   ".exr",
   ".heic",
   ".dcm", ".dicm", ".dicom", ".svs",
   ".indd", ".indml", ".indt", ".inx"]

/-- Video extension list of utilities.ts. -/
def videoExtensions : List String :=
  [".mp4", ".m4v", ".mov", ".avi", ".mkv", ".webm", ".wmv", ".flv",
   ".mpeg", ".mpg", ".m2ts", ".mts", ".3gp"]

/-- utilities.ts `isImageFile`. -/
def isImageFile (filename : String) : Bool :=
  imageExtensions.contains (fileExtension filename)

/-- utilities.ts `isVideoFile`. -/
def isVideoFile (filename : String) : Bool :=
  videoExtensions.contains (fileExtension filename)

/-- Extensions that select the markdown representation. -/
def markdownExts : List String :=
  [".docx", ".pptx", ".xls", ".xlsx", ".xlsm", ".gdoc", ".gslide",
   ".gslides", ".gsheet", ".pdf"]

/-- `getRepresentationTypeForFilename`: here a missing dot yields the empty
extension (dotIndex < 0 branch). -/
def getRepresentationTypeForFilename (fileName : String) : String :=
  let lower := jsToLower fileName
  let ext := match suffixFromLastDot lower.data with
             | some s => String.mk s
             | none => ""
  if markdownExts.contains ext then "markdown" else "extracted_text"

/-- `workingRep.status?.state`. -/
def effState (r : RepEntry) : Option String :=
  r.status.bind RepStatus.state

/-- `workingRep.info?.url`. -/
def repEntryInfoUrl (r : RepEntry) : Option String :=
  r.info.bind RepInfo.url

/-- Truthiness of `workingRep.info?.url` (undefined and the empty string are
falsy). -/
def truthyInfoUrl (r : RepEntry) : Bool :=
  match repEntryInfoUrl r with
  | some u => u != ""
  | none => false

/-- Truthiness of `!state` (undefined or empty string). -/
def stateFalsy (r : RepEntry) : Bool :=
  match effState r with
  | none => true
  | some s => s == ""

/-- Readiness: state falsy with a truthy info URL, or state equal to
success or viewable. -/
def isReadyRep (r : RepEntry) : Bool :=
  (stateFalsy r && truthyInfoUrl r) ||
    effState r == some "success" || effState r == some "viewable"

/-- `refreshed.representations?.entries?.find(rep => rep.representation ===
repType)`. -/
def findRep (repType : String) (fw : FileWithReps) : Option RepEntry :=
  (fw.representations.bind Representations.entries).bind
    (List.find? (fun r => r.representation == repType))

/-- The poll loop of `getReadyRepresentation` (attempts 1..3): sleep
`1500 * attempt`, re-issue the listing call, adopt the refreshed entry when
present, break at the first ready refreshed entry.  Returns the final working
entry (or a propagated thrown error), the next listing index, and the delays
slept. -/
def pollSteps (env : Env) (repType : String) :
    List Nat → RepEntry → Nat → (Except BoxError RepEntry) × Nat × List Nat
  | [], working, li => (.ok working, li, [])
  | attempt :: rest, working, li =>
    let d := 1500 * attempt
    match env.listings li with
    | .error e => (.error e, li + 1, [d])
    | .ok refreshed =>
      match findRep repType refreshed with
      | some r =>
        if isReadyRep r then (.ok r, li + 1, [d])
        else
          let next := pollSteps env repType rest r (li + 1)
          (next.1, next.2.1, d :: next.2.2)
      | none =>
        let next := pollSteps env repType rest working (li + 1)
        (next.1, next.2.1, d :: next.2.2)

/-- Outcome of `getReadyRepresentation`: a ready entry or a diagnostic
content string. -/
inductive RepResolveResult where
  | rep (r : RepEntry)
  | content (c : String)
  deriving DecidableEq

/-- `getReadyRepresentation` of document_loaders.ts, over the listing oracle
starting at index `li`.  Returns the outcome (a thrown listing error
propagates as `.error`), the next listing index, and the delays slept. -/
def getReadyRepresentation (env : Env) (fileName fileId repType : String)
    (li : Nat) : (Except BoxError RepResolveResult) × Nat × List Nat :=
  match env.listings li with
  | .error e => (.error e, li + 1, [])
  | .ok fw =>
    match fw.representations with
    | none =>
      (.ok (.content ("[Error: No representations available for " ++
        fileName ++ "]")), li + 1, [])
    | some reps =>
      match reps.entries with
      | none =>
        (.ok (.content ("[Error: No representations available for " ++
          fileName ++ "]")), li + 1, [])
      | some entries =>
        match entries.find? (fun r => r.representation == repType) with
        | none =>
          (.ok (.content ("[Error: No " ++ repType ++
            " representation available for " ++ fileName ++ "]")), li + 1, [])
        | some found =>
          let step :=
            if !isReadyRep found &&
                (effState found == some "pending" ||
                 effState found == some "processing") then
              pollSteps env repType [1, 2, 3] found (li + 1)
            else (.ok found, li + 1, [])
          match step with
          | (.error e, li2, ds) => (.error e, li2, ds)
          | (.ok working, li2, ds) =>
            let res : RepResolveResult :=
              if isReadyRep working && truthyInfoUrl working then
                .rep working
              else if effState working == some "pending" ||
                  effState working == some "processing" then
                .content ("[Info: " ++ repType ++
                  " representation still processing for " ++ fileName ++ "]")
              else if effState working == some "none" then
                .content ("[Error: No " ++ repType ++
                  " representation available for " ++ fileName ++ "]")
              else if effState working == some "error" ||
                  effState working == some "failed" then
                .content ("[Error: " ++ repType ++ " extraction failed for " ++
                  fileName ++ "]")
              else
                .content ("[Error: Unknown " ++ repType ++
                  " representation state for " ++ fileName ++ "]")
            (.ok res, li2, ds)

/-- Outcome of `getRepresentationUrlFromInfo`: a URL or a diagnostic. -/
inductive UrlResult where
  | url (u : String)
  | content (c : String)
  deriving DecidableEq

/-- The literal `\x7b+asset_path\x7d` placeholder of the URL template. -/
def assetPathToken : String := "\x7b+asset_path\x7d"

/-- Whether the second list starts with the first. -/
def leadsWith : List Char → List Char → Bool
  | [], _ => true
  | _ :: _, [] => false
  | p :: ps, c :: cs => p == c && leadsWith ps cs

/-- Replace the first occurrence of `pat` (as a character list) by `repl`,
or return `none` when `pat` does not occur. -/
def replaceFirstAux (pat repl : List Char) : List Char → Option (List Char)
  | [] => none
  | c :: cs =>
    if leadsWith pat (c :: cs) then some (repl ++ (c :: cs).drop pat.length)
    else
      match replaceFirstAux pat repl cs with
      | some r => some (c :: r)
      | none => none

/-- JavaScript `String.prototype.replace` with a string pattern: only the
first occurrence is replaced (an empty pattern matches at the start). -/
def replaceFirst (s pat repl : String) : String :=
  if pat = "" then repl ++ s
  else
    match replaceFirstAux pat.data repl.data s.data with
    | some r => String.mk r
    | none => s

/-- `getRepresentationUrlFromInfo`: falsy info URL yields a diagnostic with
no fetch; a network error of the fetch is NOT caught here and propagates;
non-200 status, malformed JSON and a falsy url_template yield diagnostics. -/
def getRepresentationUrlFromInfo (env : Env) (infoUrl : Option String)
    (fileName fileId repType : String) (ii : Nat) :
    (Except BoxError UrlResult) × Nat :=
  match infoUrl with
  | none =>
    (.ok (.content ("[Error: No " ++ repType ++
      " representation URL available for " ++ fileName ++ "]")), ii)
  | some u =>
    if u == "" then
      (.ok (.content ("[Error: No " ++ repType ++
        " representation URL available for " ++ fileName ++ "]")), ii)
    else
      match env.infoFetches ii with
      | .error e => (.error e, ii + 1)
      | .ok resp =>
        if resp.status ≠ 200 then
          (.ok (.content ("[Error: Failed to get " ++ repType ++
            " representation URL for " ++ fileName ++ " - Status: " ++
            toString resp.status ++ "]")), ii + 1)
        else
          match resp.body with
          | .malformed =>
            (.ok (.content ("[Error: Invalid representation data format for " ++
              fileName ++ "]")), ii + 1)
          | .parsed none =>
            (.ok (.content ("[Error: No " ++ repType ++
              " representation URL available for " ++ fileName ++ "]")), ii + 1)
          | .parsed (some t) =>
            if t == "" then
              (.ok (.content ("[Error: No " ++ repType ++
                " representation URL available for " ++ fileName ++ "]")), ii + 1)
            else
              (.ok (.url (replaceFirst t assetPathToken "")), ii + 1)

/-- Outcome of `fetchFromRepresentationUrl`: fetched text or a diagnostic. -/
inductive TextResult where
  | text (t : String)
  | content (c : String)
  deriving DecidableEq

/-- `fetchFromRepresentationUrl`: network errors are caught here and become
diagnostics; `response.ok` is status 200..299. -/
def fetchFromRepresentationUrl (env : Env) (fileName repType : String)
    (ci : Nat) : TextResult × Nat :=
  match env.contentFetches ci with
  | .error _ =>
    (.content ("[Error: Network error while fetching " ++ repType ++
      " representation for " ++ fileName ++ "]"), ci + 1)
  | .ok resp =>
    if resp.status < 200 ∨ 299 < resp.status then
      (.content ("[Error: Failed to fetch " ++ repType ++ " content for " ++
        fileName ++ " - Status: " ++ toString resp.status ++ "]"), ci + 1)
    else
      (.text resp.body, ci + 1)

/-- The empty-content retry loop of `loadFileById` (attempts 1..2): sleep
`1000 * attempt`, redo resolve, info URL and fetch; any thrown error or
missing piece just moves to the next attempt; the first retry text with
non-empty trim replaces the content and breaks. -/
def emptyRetryLoop (env : Env) (fileId fileName repType : String) :
    List Nat → String → Ledger → String × Ledger
  | [], content, L => (content, L)
  | attempt :: rest, content, L =>
    let d := 1000 * attempt
    let step1 := getReadyRepresentation env fileName fileId repType L.li
    let L1 : Ledger := ⟨step1.2.1, L.ii, L.ci, L.delays ++ d :: step1.2.2⟩
    match step1.1 with
    | .error _ => emptyRetryLoop env fileId fileName repType rest content L1
    | .ok (.content _) => emptyRetryLoop env fileId fileName repType rest content L1
    | .ok (.rep rep) =>
      let step2 := getRepresentationUrlFromInfo env (repEntryInfoUrl rep)
        fileName fileId repType L1.ii
      let L2 : Ledger := ⟨L1.li, step2.2, L1.ci, L1.delays⟩
      match step2.1 with
      | .error _ => emptyRetryLoop env fileId fileName repType rest content L2
      | .ok (.content _) => emptyRetryLoop env fileId fileName repType rest content L2
      | .ok (.url u) =>
        if u == "" then emptyRetryLoop env fileId fileName repType rest content L2
        else
          let step3 := fetchFromRepresentationUrl env fileName repType L2.ci
          let L3 : Ledger := ⟨L2.li, L2.ii, step3.2, L2.delays⟩
          match step3.1 with
          | .content _ => emptyRetryLoop env fileId fileName repType rest content L3
          | .text t =>
            if jsTrim t == "" then
              emptyRetryLoop env fileId fileName repType rest content L3
            else (t, L3)

/-- The inner try block of `loadFileById`: resolve, info URL, fetch, and the
empty-content retry loop; any error thrown by the resolver or by the info URL
fetch is caught and becomes `[Error reading file: name]`. -/
def computeContent (env : Env) (fileId fileName repType : String) :
    String × Ledger :=
  let step1 := getReadyRepresentation env fileName fileId repType 0
  let L1 : Ledger := ⟨step1.2.1, 0, 0, step1.2.2⟩
  match step1.1 with
  | .error _ => ("[Error reading file: " ++ fileName ++ "]", L1)
  | .ok (.content c) => (c, L1)
  | .ok (.rep rep) =>
    let step2 := getRepresentationUrlFromInfo env (repEntryInfoUrl rep)
      fileName fileId repType 0
    let L2 : Ledger := ⟨L1.li, step2.2, 0, L1.delays⟩
    match step2.1 with
    | .error _ => ("[Error reading file: " ++ fileName ++ "]", L2)
    | .ok (.content c) => (c, L2)
    | .ok (.url u) =>
      if u == "" then ("", L2)
      else
        let step3 := fetchFromRepresentationUrl env fileName repType 0
        let L3 : Ledger := ⟨L2.li, L2.ii, step3.2, L2.delays⟩
        let content0 := match step3.1 with
          | .text t => t
          | .content c => c
        if jsTrim content0 == "" then
          emptyRetryLoop env fileId fileName repType [1, 2] content0 L3
        else (content0, L3)

/-- JavaScript `content.substring(0, n)` (n clamped below at 0 by `toNat` at
the call site). -/
def jsSubstring0 (s : String) (n : Nat) : String :=
  String.mk (s.data.take n)

/-- `if (this.characterLimit && content.length > this.characterLimit)
content = content.substring(0, this.characterLimit)`: 0 is falsy. -/
def applyCharacterLimit (characterLimit : Option Int) (content : String) :
    String :=
  match characterLimit with
  | none => content
  | some cl =>
    if cl ≠ 0 ∧ cl < (content.length : Int) then jsSubstring0 content cl.toNat
    else content

/-- The metadata object built by `loadFileById`. -/
def mkDocMetadata (fileId : String) (fi : FileInfo) : DocMetadata :=
  ⟨"box://file/" ++ fileId, fileId, fi.name.getD "", fi.extension.getD "",
   fi.size.getD 0, fi.createdAt.getD "", fi.modifiedAt.getD "",
   "https://app.box.com/file/" ++ fileId⟩

/-- Result of `loadFileById`: emitted document (none when the outer catch
returns null or the image/video filter skips), plus the call ledger. -/
structure LoadResult where
  doc : Option Document
  ledger : Ledger
  deriving DecidableEq

/-- `loadFileById`: a failed metadata (or token) phase returns null; image and
video names are skipped before any representation request; otherwise the
content pipeline runs, the character limit is applied and a Document with
fully populated metadata is returned. -/
def loadFileById (env : Env) (fileId : String) (characterLimit : Option Int) :
    LoadResult :=
  match env.fileInfo with
  | .error _ => ⟨none, ⟨0, 0, 0, []⟩⟩
  | .ok fi =>
    let fileName := fi.name.getD ""
    if isImageFile fileName || isVideoFile fileName then ⟨none, ⟨0, 0, 0, []⟩⟩
    else
      let repType := getRepresentationTypeForFilename fileName
      let res := computeContent env fileId fileName repType
      ⟨some ⟨applyCharacterLimit characterLimit res.1, mkDocMetadata fileId fi⟩,
       res.2⟩

/-- A folder entry as consumed by the loader (only `id` and `type` are read
back from the listed fields). -/
structure Item where
  id : String
  type : String
  deriving DecidableEq

/-- The pagination loop of `getFolderItems`, over an abstract page oracle
(offset to returned entries), fuel-indexed (the source loop is unbounded;
`none` means the fuel ran out).  Returns the collected items and the offsets
of the listing calls issued, in order. -/
def getFolderItemsLoop (resp : Nat → List Item) :
    Nat → Nat → Option (List Item × List Nat)
  | 0, _ => none
  | fuel + 1, offset =>
    if (resp offset).length = 0 then some ([], [offset])
    else if (resp offset).length < 100 then some (resp offset, [offset])
    else
      match getFolderItemsLoop resp fuel (offset + (resp offset).length) with
      | none => none
      | some (rest, calls) => some (resp offset ++ rest, offset :: calls)

/-- An error-free remote folder listing: the server holds `entries` and
answers a page request at `offset` with the next (at most) 100 entries. -/
def folderResp (entries : List Item) (offset : Nat) : List Item :=
  (entries.drop offset).take 100

/-- `getFolderItems` against an error-free server holding `entries`; the fuel
`entries.length + 1` is provably sufficient. -/
def getFolderItems (entries : List Item) : List Item :=
  match getFolderItemsLoop (folderResp entries) (entries.length + 1) 0 with
  | some (items, _) => items
  | none => []

/-- The pagination loop of `getFolderItemsGenerator` (lazy variant): same
page rule, entries yielded in page order; its per-page try/catch never fires
against an error-free server. -/
def getFolderItemsGenerator (resp : Nat → List Item) : Nat → Nat → List Item
  | 0, _ => []
  | fuel + 1, offset =>
    if (resp offset).length = 0 then []
    else if (resp offset).length < 100 then resp offset
    else resp offset ++ getFolderItemsGenerator resp fuel (offset + (resp offset).length)

/-- Exhausting `getFolderItemsGenerator` against an error-free server. -/
def lazyFolderItems (entries : List Item) : List Item :=
  getFolderItemsGenerator (folderResp entries) (entries.length + 1) 0

/-- `documents.push(...)` accumulation over a loop body producing a list per
element. -/
def concatMap (f : α → List β) : List α → List β
  | [] => []
  | x :: xs => f x ++ concatMap f xs

/-- World: a per-file oracle environment and an error-free folder listing
(folder id to its full entry list). -/
structure World where
  fileEnv : String → Env
  folderEntries : String → List Item

/-- Loader options (`boxFileIds` may be present and empty, which is truthy in
the source). -/
structure BoxLoaderOptions where
  boxFileIds : Option (List String)
  boxFolderId : Option String
  recursive : Bool
  characterLimit : Option Int

/-- One iteration of the facade loops: the document list contributed by one
file id (empty when `loadFileById` returned null). -/
def loadDoc (W : World) (cl : Option Int) (fileId : String) : List Document :=
  match (loadFileById (W.fileEnv fileId) fileId cl).doc with
  | some d => [d]
  | none => []

/-- `loadFromFolder`: eager traversal, files loaded in place, subfolders
expanded depth-first when recursion is enabled.  Fuel bounds the recursion
depth (the source recurses natively). -/
def loadFromFolder (W : World) (cl : Option Int) (recursive : Bool) :
    Nat → String → List Document
  | 0, _ => []
  | depth + 1, folderId =>
    concatMap
      (fun item =>
        if item.type == "file" then loadDoc W cl item.id
        else if item.type == "folder" && recursive then
          loadFromFolder W cl recursive depth item.id
        else [])
      (getFolderItems (W.folderEntries folderId))

/-- `load` (current snapshot): the fileIds branch is taken whenever
`boxFileIds` is present (even empty), else the folder branch, else a thrown
error. -/
def load (W : World) (opts : BoxLoaderOptions) (depth : Nat) :
    Except String (List Document) :=
  match opts.boxFileIds with
  | some ids => .ok (concatMap (loadDoc W opts.characterLimit) ids)
  | none =>
    match opts.boxFolderId with
    | some folderId =>
      .ok (loadFromFolder W opts.characterLimit opts.recursive depth folderId)
    | none => .error "No boxFileIds or boxFolderId provided"

/-- `iterateFolderFiles`: the lazy traversal yielding file ids depth-first. -/
def iterateFolderFiles (W : World) (recursive : Bool) :
    Nat → String → List String
  | 0, _ => []
  | depth + 1, folderId =>
    concatMap
      (fun item =>
        if item.type == "file" then [item.id]
        else if item.type == "folder" && recursive then
          iterateFolderFiles W recursive depth item.id
        else [])
      (lazyFolderItems (W.folderEntries folderId))

/-- `lazyLoad` (current snapshot), exhausted into a list: the fileIds branch
is taken only when `boxFileIds` is present AND non-empty; otherwise the
folder branch; else a thrown error. -/
def lazyLoad (W : World) (opts : BoxLoaderOptions) (depth : Nat) :
    Except String (List Document) :=
  match opts.boxFileIds with
  | some ids =>
    if 0 < ids.length then .ok (concatMap (loadDoc W opts.characterLimit) ids)
    else
      match opts.boxFolderId with
      | some folderId =>
        .ok (concatMap (loadDoc W opts.characterLimit)
          (iterateFolderFiles W opts.recursive depth folderId))
      | none => .error "No boxFileIds or boxFolderId provided"
  | none =>
    match opts.boxFolderId with
    | some folderId =>
      .ok (concatMap (loadDoc W opts.characterLimit)
        (iterateFolderFiles W opts.recursive depth folderId))
    | none => .error "No boxFileIds or boxFolderId provided"

/-! Concrete fixtures used by witnesses and counterexamples. -/

/-- A representation entry in state `pending` with no info URL. -/
def pendingRep (repType : String) : RepEntry :=
  ⟨repType, some ⟨some "pending", none⟩, none⟩

/-- A representation entry in state `success` carrying an info URL. -/
def readyRep (repType url : String) : RepEntry :=
  ⟨repType, some ⟨some "success", none⟩, some ⟨some url⟩⟩

/-- A listing response holding exactly one entry. -/
def listingOf (r : RepEntry) : FileWithReps :=
  ⟨some ⟨some [r]⟩⟩

/-- Metadata of a plain text file. -/
def fiTxt : FileInfo :=
  ⟨some "a.txt", some "txt", some 7, some "cr", some "mo"⟩

/-- Unused oracle stubs for runs that never reach the given endpoint. -/
def junkFi : Except BoxError FileInfo := .ok fiTxt

/-- Info fetch oracle that always fails (never reached in the runs using it). -/
def junkInfoF : Nat → Except BoxError InfoResponse := fun _ => .error ⟨none⟩

/-- Content fetch oracle that always fails (never reached in the runs using
it). -/
def junkContF : Nat → Except BoxError ContentResponse := fun _ => .error ⟨none⟩

/-- Environment in which every stage succeeds but every fetched
representation body is empty. -/
def envEmptyContent : Env :=
  ⟨.ok fiTxt,
   fun _ => .ok (listingOf (readyRep "extracted_text" "http://u")),
   fun _ => .ok ⟨200, .parsed (some "http://t")⟩,
   fun _ => .ok ⟨200, ""⟩⟩

/-- Environment whose listing response carries no representations object:
the pipeline stops at the first diagnostic. -/
def envNoReps (nm : String) : Env :=
  ⟨.ok ⟨some nm, some "txt", some 1, some "c", some "m"⟩,
   fun _ => .ok ⟨none⟩, fun _ => .error ⟨none⟩, fun _ => .error ⟨none⟩⟩

/-- World: every file resolves through `envNoReps`; folder F holds one file
with id b. -/
def W8 : World :=
  ⟨fun fid => envNoReps (fid ++ ".txt"),
   fun f => if f == "F" then [⟨"b", "file"⟩] else []⟩

/-- Options supplying both a file id list and a folder id. -/
def opts8 : BoxLoaderOptions := ⟨some ["a"], some "F", false, none⟩

/-- Options supplying an empty (but present) file id list and a folder id. -/
def opts9 : BoxLoaderOptions := ⟨some [], some "F", false, none⟩

/-- The document produced for file `fid` through `envNoReps`. -/
def docNoReps (fid : String) : Document :=
  ⟨"[Error: No representations available for " ++ fid ++ ".txt]",
   ⟨"box://file/" ++ fid, fid, fid ++ ".txt", "txt", 1, "c", "m",
    "https://app.box.com/file/" ++ fid⟩⟩

/-- Environment of a PNG file. -/
def envPng : Env :=
  ⟨.ok ⟨some "pic.PNG", some "png", some 3, some "c", some "m"⟩,
   fun _ => .ok ⟨none⟩, fun _ => .error ⟨none⟩, fun _ => .error ⟨none⟩⟩

/-- World whose every file is the PNG file. -/
def WPng : World := ⟨fun _ => envPng, fun _ => []⟩

/-- Environment of an MP4 file. -/
def envMp4 : Env :=
  ⟨.ok ⟨some "movie.mp4", some "mp4", some 3, some "c", some "m"⟩,
   fun _ => .ok ⟨none⟩, fun _ => .error ⟨none⟩, fun _ => .error ⟨none⟩⟩

/-- World whose every file is the MP4 file. -/
def WMp4 : World := ⟨fun _ => envMp4, fun _ => []⟩

/-- Environment whose content fetches return empty, then a single space,
then a tab: every body trims to empty. -/
def envC3cx : Env :=
  ⟨.ok fiTxt,
   fun _ => .ok (listingOf (readyRep "extracted_text" "http://u")),
   fun _ => .ok ⟨200, .parsed (some "http://t")⟩,
   fun n => if n = 0 then .ok ⟨200, ""⟩
            else if n = 1 then .ok ⟨200, " "⟩ else .ok ⟨200, "\t"⟩⟩

/-- A folder entry of type file. -/
def fileItem : Item := ⟨"x", "file"⟩

/-- Number of listing calls the eager pagination loop issues against an
error-free server holding `entries`. -/
def listingCallCount (entries : List Item) : Nat :=
  match getFolderItemsLoop (folderResp entries) (entries.length + 1) 0 with
  | some (_, calls) => calls.length
  | none => 0

/-- Page oracle answering offset 0 with a full page of 100 entries and every
other offset with an empty page. -/
def respW : Nat → List Item :=
  fun off => if off = 0 then List.replicate 100 fileItem else []

/-! Helper lemmas. -/

/-- Any successful pagination run starts with a listing call at its starting
offset. -/
lemma getFolderItemsLoop_calls_head (resp : Nat → List Item)
    (fuel offset : Nat) (items : List Item) (calls : List Nat)
    (h : getFolderItemsLoop resp fuel offset = some (items, calls)) :
    ∃ t, calls = offset :: t := by
  match fuel with
  | 0 => simp [getFolderItemsLoop] at h
  | fuel + 1 =>
    rw [getFolderItemsLoop] at h
    split at h
    · rw [Option.some.injEq, Prod.mk.injEq] at h
      exact ⟨[], h.2.symm⟩
    · split at h
      · rw [Option.some.injEq, Prod.mk.injEq] at h
        exact ⟨[], h.2.symm⟩
      · split at h
        · exact absurd h (by simp)
        · rw [Option.some.injEq, Prod.mk.injEq] at h
          exact ⟨_, h.2.symm⟩

/-- A page request beyond all but fewer than 100 remaining entries returns
exactly the remaining suffix. -/
lemma folderResp_drop (L : List Item) (offset : Nat)
    (h : L.length - offset < 100) : folderResp L offset = L.drop offset := by
  unfold folderResp
  apply List.take_all_of_le
  rw [List.length_drop]
  omega

/-- Against an error-free server the eager pagination loop, given enough
fuel, collects exactly the entries from its starting offset on. -/
lemma getFolderItemsLoop_drop (L : List Item) :
    ∀ (fuel offset : Nat), L.length < offset + 100 * (fuel + 1) →
      ∃ calls, getFolderItemsLoop (folderResp L) (fuel + 1) offset =
        some (L.drop offset, calls) := by
  intro fuel
  induction fuel with
  | zero =>
    intro offset hb
    refine ⟨[offset], ?_⟩
    rw [getFolderItemsLoop]
    rw [folderResp_drop L offset (by omega)]
    by_cases h0 : (L.drop offset).length = 0
    · rw [if_pos h0, List.length_eq_zero.mp h0]
    · rw [if_neg h0, if_pos (by rw [List.length_drop]; omega)]
  | succ fuel ih =>
    intro offset hb
    by_cases hsmall : L.length - offset < 100
    · refine ⟨[offset], ?_⟩
      rw [getFolderItemsLoop]
      rw [folderResp_drop L offset hsmall]
      by_cases h0 : (L.drop offset).length = 0
      · rw [if_pos h0, List.length_eq_zero.mp h0]
      · rw [if_neg h0, if_pos (by rw [List.length_drop]; omega)]
    · have hlen : (folderResp L offset).length = 100 := by
        unfold folderResp
        rw [List.length_take, List.length_drop]
        omega
      obtain ⟨calls, hrec⟩ := ih (offset + 100) (by omega)
      refine ⟨offset :: calls, ?_⟩
      rw [getFolderItemsLoop]
      simp only [hlen]
      rw [if_neg (by omega), if_neg (by omega), hrec]
      have happ : folderResp L offset ++ L.drop (offset + 100) =
          L.drop offset := by
        have h1 : List.drop (offset + 100) L =
            List.drop 100 (List.drop offset L) := by
          rw [List.drop_drop]
        rw [h1]
        exact List.take_append_drop 100 (L.drop offset)
      simp [happ]

/-- Against an error-free server the lazy pagination loop yields exactly the
entries from its starting offset on. -/
lemma getFolderItemsGenerator_drop (L : List Item) :
    ∀ (fuel offset : Nat), L.length < offset + 100 * (fuel + 1) →
      getFolderItemsGenerator (folderResp L) (fuel + 1) offset =
        L.drop offset := by
  intro fuel
  induction fuel with
  | zero =>
    intro offset hb
    rw [getFolderItemsGenerator]
    rw [folderResp_drop L offset (by omega)]
    by_cases h0 : (L.drop offset).length = 0
    · rw [if_pos h0, List.length_eq_zero.mp h0]
    · rw [if_neg h0, if_pos (by rw [List.length_drop]; omega)]
  | succ fuel ih =>
    intro offset hb
    by_cases hsmall : L.length - offset < 100
    · rw [getFolderItemsGenerator]
      rw [folderResp_drop L offset hsmall]
      by_cases h0 : (L.drop offset).length = 0
      · rw [if_pos h0, List.length_eq_zero.mp h0]
      · rw [if_neg h0, if_pos (by rw [List.length_drop]; omega)]
    · have hlen : (folderResp L offset).length = 100 := by
        unfold folderResp
        rw [List.length_take, List.length_drop]
        omega
      rw [getFolderItemsGenerator]
      simp only [hlen]
      rw [if_neg (by omega), if_neg (by omega), ih (offset + 100) (by omega)]
      have h1 : List.drop (offset + 100) L =
          List.drop 100 (List.drop offset L) := by
        rw [List.drop_drop]
      rw [h1]
      unfold folderResp
      exact List.take_append_drop 100 (L.drop offset)

/-- Eager enumeration of an error-free folder returns its full entry list. -/
lemma getFolderItems_eq (L : List Item) : getFolderItems L = L := by
  unfold getFolderItems
  obtain ⟨calls, h⟩ := getFolderItemsLoop_drop L L.length 0 (by omega)
  rw [h, List.drop_zero]

/-- Lazy enumeration of an error-free folder yields its full entry list. -/
lemma lazyFolderItems_eq (L : List Item) : lazyFolderItems L = L := by
  unfold lazyFolderItems
  rw [getFolderItemsGenerator_drop L L.length 0 (by omega), List.drop_zero]

/-- `concatMap` distributes over append. -/
lemma concatMap_append (f : α → List β) (xs ys : List α) :
    concatMap f (xs ++ ys) = concatMap f xs ++ concatMap f ys := by
  induction xs with
  | nil => simp [concatMap]
  | cons x xs ih => simp [concatMap, ih]

/-- `concatMap` composes. -/
lemma concatMap_assoc (f : α → List β) (g : β → List γ) (xs : List α) :
    concatMap g (concatMap f xs) =
      concatMap (fun x => concatMap g (f x)) xs := by
  induction xs with
  | nil => rfl
  | cons x xs ih => simp only [concatMap, concatMap_append, ih]

/-- `concatMap` is pointwise-congruent. -/
lemma concatMap_congr {f g : α → List β} (xs : List α)
    (h : ∀ x ∈ xs, f x = g x) : concatMap f xs = concatMap g xs := by
  induction xs with
  | nil => rfl
  | cons x xs ih =>
    simp only [concatMap, h x (by simp)]
    rw [ih fun y hy => h y (by simp [hy])]

/-- Against an error-free folder server, eager folder traversal produces
document for document the lazy traversal of the same depth. -/
lemma loadFromFolder_eq_lazy (W : World) (cl : Option Int) (r : Bool) :
    ∀ (depth : Nat) (folderId : String),
      loadFromFolder W cl r depth folderId =
        concatMap (loadDoc W cl) (iterateFolderFiles W r depth folderId) := by
  intro depth
  induction depth with
  | zero => intro folderId; rfl
  | succ d ih =>
    intro folderId
    rw [loadFromFolder, iterateFolderFiles, getFolderItems_eq,
      lazyFolderItems_eq, concatMap_assoc]
    apply concatMap_congr
    intro item hmem
    by_cases hf : item.type == "file"
    · simp [hf, concatMap]
    · by_cases hfold : (item.type == "folder" && r) = true
      · simp [hf, hfold, ih]
      · simp [hf, hfold, concatMap]

/-- With the metadata phase succeeding and the name neither image nor video,
`loadFileById` runs the content pipeline and emits the document built from
the file metadata. -/
lemma loadFileById_ok (env : Env) (fid : String) (cl : Option Int)
    (fi : FileInfo) (h : env.fileInfo = .ok fi)
    (hi : isImageFile (fi.name.getD "") = false)
    (hv : isVideoFile (fi.name.getD "") = false) :
    loadFileById env fid cl =
      ⟨some ⟨applyCharacterLimit cl
          (computeContent env fid (fi.name.getD "")
            (getRepresentationTypeForFilename (fi.name.getD ""))).1,
        mkDocMetadata fid fi⟩,
       (computeContent env fid (fi.name.getD "")
         (getRepresentationTypeForFilename (fi.name.getD ""))).2⟩ := by
  unfold loadFileById
  rw [h]
  simp [hi, hv]

/-- Facade-loop version of `loadFileById_ok`. -/
lemma loadDoc_ok (W : World) (cl : Option Int) (fid : String) (fi : FileInfo)
    (h : (W.fileEnv fid).fileInfo = .ok fi)
    (hi : isImageFile (fi.name.getD "") = false)
    (hv : isVideoFile (fi.name.getD "") = false) :
    loadDoc W cl fid =
      [⟨applyCharacterLimit cl
          (computeContent (W.fileEnv fid) fid (fi.name.getD "")
            (getRepresentationTypeForFilename (fi.name.getD ""))).1,
        mkDocMetadata fid fi⟩] := by
  unfold loadDoc
  rw [loadFileById_ok (W.fileEnv fid) fid cl fi h hi hv]

/-! Claim theorems. -/

/-- Claim C1, counterexample to the claim as stated: in a run where every
remote call succeeds but every fetched representation body is empty, the
emitted Document has the empty string as content — which is not a
human-readable diagnostic string — while the claim asserts the content of a
Document emitted after an empty-content failure is such a diagnostic. -/
theorem claim1_counterexample :
    loadFileById envEmptyContent "f1" none =
      ⟨some ⟨"", mkDocMetadata "f1" fiTxt⟩, ⟨3, 3, 3, [1000, 2000]⟩⟩ ∧
    ("" : String).length = 0 :=
  ⟨rfl, rfl⟩

/-- Claim C1, amended: for every file whose metadata phase succeeds and whose
name is not filtered as image/video, `loadFileById` always emits a Document
whose metadata fields are fully populated from the file metadata and whose
content is whatever the pipeline produced (a diagnostic string, fetched text,
or — after persistent empty fetches — the kept possibly-empty text); `load`
and `lazyLoad` never throw on a present (respectively present and non-empty)
file id list. -/
theorem claim1_theorem (env : Env) (fid : String) (cl : Option Int)
    (fi : FileInfo) (h : env.fileInfo = .ok fi)
    (hi : isImageFile (fi.name.getD "") = false)
    (hv : isVideoFile (fi.name.getD "") = false) :
    (∃ d, (loadFileById env fid cl).doc = some d ∧
      d.pageContent = applyCharacterLimit cl
        (computeContent env fid (fi.name.getD "")
          (getRepresentationTypeForFilename (fi.name.getD ""))).1 ∧
      d.metadata.source = "box://file/" ++ fid ∧
      d.metadata.file_id = fid ∧
      d.metadata.file_name = fi.name.getD "" ∧
      d.metadata.file_type = fi.extension.getD "" ∧
      d.metadata.file_size = fi.size.getD 0 ∧
      d.metadata.created_at = fi.createdAt.getD "" ∧
      d.metadata.modified_at = fi.modifiedAt.getD "" ∧
      d.metadata.box_url = "https://app.box.com/file/" ++ fid) ∧
    (∀ (W : World) (ids : List String) (ffid : Option String) (r : Bool)
        (depth : Nat),
      (∃ docs, load W ⟨some ids, ffid, r, cl⟩ depth = .ok docs) ∧
      (∃ docs, lazyLoad W ⟨some (fid :: ids), ffid, r, cl⟩ depth =
        .ok docs)) := by
  constructor
  · rw [loadFileById_ok env fid cl fi h hi hv]
    exact ⟨_, rfl, rfl, rfl, rfl, rfl, rfl, rfl, rfl, rfl, rfl⟩
  · intro W ids ffid r depth
    constructor
    · exact ⟨_, rfl⟩
    · have hl : lazyLoad W ⟨some (fid :: ids), ffid, r, cl⟩ depth =
          .ok (concatMap (loadDoc W cl) (fid :: ids)) := by
        simp [lazyLoad]
      exact ⟨_, hl⟩

/-- Claim C1, witness. -/
theorem claim1_witness :
    (∃ d, (loadFileById (envNoReps "w.txt") "f9" none).doc = some d ∧
      d.pageContent = applyCharacterLimit none
        (computeContent (envNoReps "w.txt") "f9"
          ((⟨some "w.txt", some "txt", some 1, some "c", some "m"⟩ :
            FileInfo).name.getD "")
          (getRepresentationTypeForFilename
            ((⟨some "w.txt", some "txt", some 1, some "c", some "m"⟩ :
              FileInfo).name.getD ""))).1 ∧
      d.metadata.source = "box://file/" ++ "f9" ∧
      d.metadata.file_id = "f9" ∧
      d.metadata.file_name = (⟨some "w.txt", some "txt", some 1, some "c",
        some "m"⟩ : FileInfo).name.getD "" ∧
      d.metadata.file_type = (⟨some "w.txt", some "txt", some 1, some "c",
        some "m"⟩ : FileInfo).extension.getD "" ∧
      d.metadata.file_size = (⟨some "w.txt", some "txt", some 1, some "c",
        some "m"⟩ : FileInfo).size.getD 0 ∧
      d.metadata.created_at = (⟨some "w.txt", some "txt", some 1, some "c",
        some "m"⟩ : FileInfo).createdAt.getD "" ∧
      d.metadata.modified_at = (⟨some "w.txt", some "txt", some 1, some "c",
        some "m"⟩ : FileInfo).modifiedAt.getD "" ∧
      d.metadata.box_url = "https://app.box.com/file/" ++ "f9") ∧
    (∀ (W : World) (ids : List String) (ffid : Option String) (r : Bool)
        (depth : Nat),
      (∃ docs, load W ⟨some ids, ffid, r, none⟩ depth = .ok docs) ∧
      (∃ docs, lazyLoad W ⟨some ("f9" :: ids), ffid, r, none⟩ depth =
        .ok docs)) :=
  claim1_theorem (envNoReps "w.txt") "f9" none
    ⟨some "w.txt", some "txt", some 1, some "c", some "m"⟩ rfl
    (by decide) (by decide)

/-- Claim C2: against a listing oracle answering pending, pending, then a
ready (success, URL-carrying) entry, the resolver makes exactly 2 extra
listing calls after the initial one, sleeping 1500 then 3000 ms, and returns
the ready entry; against an oracle answering pending forever, it makes
exactly 3 polls, sleeping 1500, 3000, 4500 ms, and returns the still
processing diagnostic rather than a thrown error. -/
theorem claim2_theorem (fileName fileId repType url : String)
    (hurl : url ≠ "") (fiv : Except BoxError FileInfo)
    (infoF : Nat → Except BoxError InfoResponse)
    (contF : Nat → Except BoxError ContentResponse) :
    getReadyRepresentation
      ⟨fiv,
       fun n => if n < 2 then .ok (listingOf (pendingRep repType))
                else .ok (listingOf (readyRep repType url)),
       infoF, contF⟩ fileName fileId repType 0 =
      (.ok (.rep (readyRep repType url)), 3, [1500, 3000]) ∧
    getReadyRepresentation
      ⟨fiv, fun _ => .ok (listingOf (pendingRep repType)), infoF, contF⟩
      fileName fileId repType 0 =
      (.ok (.content ("[Info: " ++ repType ++
        " representation still processing for " ++ fileName ++ "]")), 4,
       [1500, 3000, 4500]) := by
  constructor
  · simp [getReadyRepresentation, pollSteps, listingOf, pendingRep, readyRep,
      isReadyRep, stateFalsy, truthyInfoUrl, effState, repEntryInfoUrl,
      findRep, List.find?, hurl]
  · simp [getReadyRepresentation, pollSteps, listingOf, pendingRep, readyRep,
      isReadyRep, stateFalsy, truthyInfoUrl, effState, repEntryInfoUrl,
      findRep, List.find?, hurl]

/-- Claim C2, witness. -/
theorem claim2_witness :
    getReadyRepresentation
      ⟨junkFi,
       fun n => if n < 2 then .ok (listingOf (pendingRep "extracted_text"))
                else .ok (listingOf (readyRep "extracted_text" "http://u")),
       junkInfoF, junkContF⟩ "a.txt" "9" "extracted_text" 0 =
      (.ok (.rep (readyRep "extracted_text" "http://u")), 3, [1500, 3000]) ∧
    getReadyRepresentation
      ⟨junkFi, fun _ => .ok (listingOf (pendingRep "extracted_text")),
       junkInfoF, junkContF⟩ "a.txt" "9" "extracted_text" 0 =
      (.ok (.content ("[Info: " ++ "extracted_text" ++
        " representation still processing for " ++ "a.txt" ++ "]")), 4,
       [1500, 3000, 4500]) :=
  claim2_theorem "a.txt" "9" "extracted_text" "http://u" (by decide)
    junkFi junkInfoF junkContF

/-- Claim C3, counterexample to the claim as stated: when the original fetch
and both retries return whitespace-only bodies (empty, space, tab), the
loader keeps the ORIGINAL first result (the empty string), not the last
result (the tab) as the claim asserts. -/
theorem claim3_counterexample :
    computeContent envC3cx "f1" "a.txt" "extracted_text" =
      ("", ⟨3, 3, 3, [1000, 2000]⟩) ∧
    envC3cx.contentFetches 2 = .ok ⟨200, "\t"⟩ ∧
    ("" : String) ≠ "\t" :=
  ⟨rfl, rfl, by decide⟩

/-- Claim C3, amended: when the first fetched text trims to empty, the loader
retries the full resolve-then-fetch sequence at most 2 more times with delay
1000 ms times the attempt number, accepts the first retry that yields
non-empty text, and otherwise keeps the original (possibly empty) first
result: an empty body followed by a non-empty body yields the non-empty text
after exactly 1 retry cycle, and all-empty bodies yield the first body after
exactly 2 retry cycles with delays 1000 and 2000 ms. -/
theorem claim3_theorem (fileName fileId repType url tmpl e s : String)
    (hurl : url ≠ "") (htmpl : tmpl ≠ "")
    (hrepl : replaceFirst tmpl assetPathToken "" ≠ "")
    (he : jsTrim e = "") (hs : jsTrim s ≠ "")
    (fiv : Except BoxError FileInfo) :
    computeContent
      ⟨fiv, fun _ => .ok (listingOf (readyRep repType url)),
       fun _ => .ok ⟨200, .parsed (some tmpl)⟩,
       fun n => if n = 0 then .ok ⟨200, e⟩ else .ok ⟨200, s⟩⟩
      fileId fileName repType = (s, ⟨2, 2, 2, [1000]⟩) ∧
    (∀ (eBody : Nat → String), (∀ n, jsTrim (eBody n) = "") →
      computeContent
        ⟨fiv, fun _ => .ok (listingOf (readyRep repType url)),
         fun _ => .ok ⟨200, .parsed (some tmpl)⟩,
         fun n => .ok ⟨200, eBody n⟩⟩
        fileId fileName repType = (eBody 0, ⟨3, 3, 3, [1000, 2000]⟩)) := by
  constructor
  · simp [computeContent, getReadyRepresentation, pollSteps, listingOf,
      readyRep, isReadyRep, stateFalsy, truthyInfoUrl, effState,
      repEntryInfoUrl, findRep, List.find?, getRepresentationUrlFromInfo,
      fetchFromRepresentationUrl, emptyRetryLoop, hurl, htmpl, hrepl, he, hs,
      beq_iff_eq]
  · intro eBody hE
    simp [computeContent, getReadyRepresentation, pollSteps, listingOf,
      readyRep, isReadyRep, stateFalsy, truthyInfoUrl, effState,
      repEntryInfoUrl, findRep, List.find?, getRepresentationUrlFromInfo,
      fetchFromRepresentationUrl, emptyRetryLoop, hurl, htmpl, hrepl, hE,
      beq_iff_eq]

/-- Claim C3, witness. -/
theorem claim3_witness :
    computeContent
      ⟨junkFi, fun _ => .ok (listingOf (readyRep "extracted_text" "http://u")),
       fun _ => .ok ⟨200, .parsed (some "http://t")⟩,
       fun n => if n = 0 then .ok ⟨200, ""⟩ else .ok ⟨200, "hello"⟩⟩
      "f1" "a.txt" "extracted_text" = ("hello", ⟨2, 2, 2, [1000]⟩) ∧
    computeContent
      ⟨junkFi, fun _ => .ok (listingOf (readyRep "extracted_text" "http://u")),
       fun _ => .ok ⟨200, .parsed (some "http://t")⟩,
       fun n => .ok ⟨200, (fun _ => "") n⟩⟩
      "f1" "a.txt" "extracted_text" = ((fun _ => "") 0, ⟨3, 3, 3, [1000, 2000]⟩) :=
  ⟨( claim3_theorem "a.txt" "f1" "extracted_text" "http://u" "http://t" ""
      "hello" (by decide) (by decide) (by decide) (by decide) (by decide)
      junkFi).1,
   ( claim3_theorem "a.txt" "f1" "extracted_text" "http://u" "http://t" ""
      "hello" (by decide) (by decide) (by decide) (by decide) (by decide)
      junkFi).2 (fun _ => "") (fun _ => rfl)⟩

/-- Claim C4: (a) whenever a successful pagination run sees a page of exactly
100 entries at some offset, the very next listing call at offset + 100 is in
the call trace; (b) a page of fewer than 100 entries (empty included)
terminates enumeration with no further call; and folders of exactly 100, 150
and 99 entries take exactly 2, 2 and 1 listing calls. -/
theorem claim4_theorem :
    (∀ (resp : Nat → List Item) (fuel offset : Nat) (items : List Item)
        (calls : List Nat),
        getFolderItemsLoop resp fuel offset = some (items, calls) →
        (resp offset).length = 100 →
        ∃ rest, calls = offset :: (offset + 100) :: rest) ∧
    (∀ (resp : Nat → List Item) (fuel offset : Nat),
        (resp offset).length < 100 →
        getFolderItemsLoop resp (fuel + 1) offset =
          some (resp offset, [offset])) ∧
    listingCallCount (List.replicate 100 fileItem) = 2 ∧
    listingCallCount (List.replicate 150 fileItem) = 2 ∧
    listingCallCount (List.replicate 99 fileItem) = 1 := by
  refine ⟨?_, ?_, rfl, rfl, rfl⟩
  · intro resp fuel offset items calls h h100
    match fuel with
    | 0 => simp [getFolderItemsLoop] at h
    | fuel + 1 =>
      rw [getFolderItemsLoop] at h
      rw [h100] at h
      rw [if_neg (by omega), if_neg (by omega)] at h
      cases hrec : getFolderItemsLoop resp fuel (offset + 100) with
      | none => rw [hrec] at h; simp at h
      | some p =>
        obtain ⟨rest', calls'⟩ := p
        rw [hrec] at h
        rw [Option.some.injEq, Prod.mk.injEq] at h
        obtain ⟨t, ht⟩ := getFolderItemsLoop_calls_head resp fuel
          (offset + 100) rest' calls' hrec
        exact ⟨t, by rw [← h.2, ht]⟩
  · intro resp fuel offset hlt
    rw [getFolderItemsLoop]
    by_cases h0 : (resp offset).length = 0
    · rw [if_pos h0, List.length_eq_zero.mp h0]
    · rw [if_neg h0, if_pos hlt]

/-- Claim C4, witness. -/
theorem claim4_witness :
    (∃ rest, ([0, 100] : List Nat) = 0 :: (0 + 100) :: rest) ∧
    getFolderItemsLoop respW (0 + 1) 100 = some (respW 100, [100]) ∧
    listingCallCount (List.replicate 100 fileItem) = 2 :=
  ⟨claim4_theorem.1 respW 2 0 (List.replicate 100 fileItem) [0, 100]
      rfl rfl,
   claim4_theorem.2.1 respW 0 100 (by decide),
   claim4_theorem.2.2.1⟩

/-- Claim C5: when the metadata call succeeds and the file name has an image
or video extension, no Document is emitted by `loadFileById` (hence by `load`
or `lazyLoad`), and no representation listing request is issued at all. -/
theorem claim5_theorem (W : World) (fid : String) (cl : Option Int) (r : Bool)
    (depth : Nat) (fi : FileInfo)
    (hinfo : (W.fileEnv fid).fileInfo = .ok fi)
    (hmedia : isImageFile (fi.name.getD "") = true ∨
      isVideoFile (fi.name.getD "") = true) :
    (loadFileById (W.fileEnv fid) fid cl).doc = none ∧
    (loadFileById (W.fileEnv fid) fid cl).ledger.li = 0 ∧
    load W ⟨some [fid], none, r, cl⟩ depth = .ok [] ∧
    lazyLoad W ⟨some [fid], none, r, cl⟩ depth = .ok [] := by
  have hskip : loadFileById (W.fileEnv fid) fid cl = ⟨none, ⟨0, 0, 0, []⟩⟩ := by
    unfold loadFileById
    rw [hinfo]
    rcases hmedia with h | h
    · simp [h]
    · simp [h]
  refine ⟨by rw [hskip], by rw [hskip], ?_, ?_⟩
  · simp [load, concatMap, loadDoc, hskip]
  · simp [lazyLoad, concatMap, loadDoc, hskip]

/-- Claim C5, witness (a `.png` and an `.mp4` file). -/
theorem claim5_witness :
    ((loadFileById (WPng.fileEnv "p1") "p1" none).doc = none ∧
     (loadFileById (WPng.fileEnv "p1") "p1" none).ledger.li = 0 ∧
     load WPng ⟨some ["p1"], none, false, none⟩ 1 = .ok [] ∧
     lazyLoad WPng ⟨some ["p1"], none, false, none⟩ 1 = .ok []) ∧
    ((loadFileById (WMp4.fileEnv "v1") "v1" none).doc = none ∧
     (loadFileById (WMp4.fileEnv "v1") "v1" none).ledger.li = 0 ∧
     load WMp4 ⟨some ["v1"], none, false, none⟩ 1 = .ok [] ∧
     lazyLoad WMp4 ⟨some ["v1"], none, false, none⟩ 1 = .ok []) :=
  ⟨claim5_theorem WPng "p1" none false 1
      ⟨some "pic.PNG", some "png", some 3, some "c", some "m"⟩ rfl
      (Or.inl (by decide)),
   claim5_theorem WMp4 "v1" none false 1
      ⟨some "movie.mp4", some "mp4", some 3, some "c", some "m"⟩ rfl
      (Or.inr (by decide))⟩

/-- Claim C6: for a file id list [a, b, c] whose metadata calls succeed with
names that are neither images nor videos, `load` returns exactly 3 Documents,
in the order a, b, c. -/
theorem claim6_theorem (W : World) (a b c : String) (r : Bool)
    (cl : Option Int) (depth : Nat) (fia fib fic : FileInfo)
    (ha : (W.fileEnv a).fileInfo = .ok fia)
    (hai : isImageFile (fia.name.getD "") = false)
    (hav : isVideoFile (fia.name.getD "") = false)
    (hb : (W.fileEnv b).fileInfo = .ok fib)
    (hbi : isImageFile (fib.name.getD "") = false)
    (hbv : isVideoFile (fib.name.getD "") = false)
    (hc : (W.fileEnv c).fileInfo = .ok fic)
    (hci : isImageFile (fic.name.getD "") = false)
    (hcv : isVideoFile (fic.name.getD "") = false) :
    ∃ d1 d2 d3,
      load W ⟨some [a, b, c], none, r, cl⟩ depth = .ok [d1, d2, d3] ∧
      d1.metadata.file_id = a ∧ d2.metadata.file_id = b ∧
      d3.metadata.file_id = c := by
  refine ⟨⟨applyCharacterLimit cl
      (computeContent (W.fileEnv a) a (fia.name.getD "")
        (getRepresentationTypeForFilename (fia.name.getD ""))).1,
      mkDocMetadata a fia⟩,
    ⟨applyCharacterLimit cl
      (computeContent (W.fileEnv b) b (fib.name.getD "")
        (getRepresentationTypeForFilename (fib.name.getD ""))).1,
      mkDocMetadata b fib⟩,
    ⟨applyCharacterLimit cl
      (computeContent (W.fileEnv c) c (fic.name.getD "")
        (getRepresentationTypeForFilename (fic.name.getD ""))).1,
      mkDocMetadata c fic⟩, ?_, rfl, rfl, rfl⟩
  simp [load, concatMap, loadDoc_ok W cl a fia ha hai hav,
    loadDoc_ok W cl b fib hb hbi hbv, loadDoc_ok W cl c fic hc hci hcv]

/-- Claim C6, witness. -/
theorem claim6_witness :
    ∃ d1 d2 d3,
      load W8 ⟨some ["a", "b", "c"], none, false, none⟩ 1 =
        .ok [d1, d2, d3] ∧
      d1.metadata.file_id = "a" ∧ d2.metadata.file_id = "b" ∧
      d3.metadata.file_id = "c" :=
  claim6_theorem W8 "a" "b" "c" false none 1
    ⟨some ("a" ++ ".txt"), some "txt", some 1, some "c", some "m"⟩
    ⟨some ("b" ++ ".txt"), some "txt", some 1, some "c", some "m"⟩
    ⟨some ("c" ++ ".txt"), some "txt", some 1, some "c", some "m"⟩
    rfl (by decide) (by decide) rfl (by decide) (by decide)
    rfl (by decide) (by decide)

/-- Claim C7: with a positive character limit, content longer than the limit
is truncated to exactly the limit with no ellipsis, content within the limit
is unchanged; limit 10 on "hello world" yields "hello worl". -/
theorem claim7_theorem :
    (∀ (cl : Int) (content : String), 0 < cl →
      ((cl < (content.length : Int) →
         applyCharacterLimit (some cl) content =
           jsSubstring0 content cl.toNat ∧
         (applyCharacterLimit (some cl) content).length = cl.toNat) ∧
       ((content.length : Int) ≤ cl →
         applyCharacterLimit (some cl) content = content))) ∧
    applyCharacterLimit (some 10) "hello world" = "hello worl" := by
  constructor
  · intro cl content hcl
    constructor
    · intro hlen
      simp only [applyCharacterLimit]
      rw [if_pos ⟨by omega, hlen⟩]
      refine ⟨rfl, ?_⟩
      unfold jsSubstring0
      have hmk : (String.mk (content.data.take cl.toNat)).length =
          (content.data.take cl.toNat).length := rfl
      have hdl : content.length = content.data.length := rfl
      rw [hmk, List.length_take]
      omega
    · intro hle
      simp only [applyCharacterLimit]
      rw [if_neg]
      rintro ⟨-, h2⟩
      omega
  · decide

/-- Claim C7, witness. -/
theorem claim7_witness :
    applyCharacterLimit (some 3) "abcdef" = jsSubstring0 "abcdef" (3 : Int).toNat ∧
    applyCharacterLimit (some 8) "abcdef" = "abcdef" :=
  ⟨((claim7_theorem.1 3 "abcdef" (by decide)).1 (by decide)).1,
   (claim7_theorem.1 8 "abcdef" (by decide)).2 (by decide)⟩

/-- Claim C8, counterexample to the claim as stated: with both a file id list
and a folder id supplied, `load` returns only the file-id documents; the
folder — whose traversal alone would produce the document of file b — is
ignored. -/
theorem claim8_counterexample :
    load W8 opts8 1 = .ok [docNoReps "a"] ∧
    (docNoReps "a").metadata.file_id = "a" ∧
    loadFromFolder W8 none false 1 "F" = [docNoReps "b"] ∧
    (docNoReps "b").metadata.file_id = "b" :=
  ⟨rfl, rfl, rfl, rfl⟩

/-- Claim C8, amended: when both `fileIds` and `folderId` are supplied,
`load` processes only the file id list; the folder id has no effect on the
result. -/
theorem claim8_theorem (W : World) (ids : List String) (folderId : String)
    (r : Bool) (cl : Option Int) (depth : Nat) :
    load W ⟨some ids, some folderId, r, cl⟩ depth =
      load W ⟨some ids, none, r, cl⟩ depth := rfl

/-- Claim C9, counterexample to the claim as stated: with a present-but-empty
file id list and a folder id, `load` returns no documents while `lazyLoad`
traverses the folder and yields one. -/
theorem claim9_counterexample :
    lazyLoad W8 opts9 1 = .ok [docNoReps "b"] ∧
    load W8 opts9 1 = .ok [] ∧
    lazyLoad W8 opts9 1 ≠ load W8 opts9 1 := by
  refine ⟨rfl, rfl, ?_⟩
  intro h
  have h1 : (Except.ok [docNoReps "b"] : Except String (List Document)) =
      .ok [] := by
    calc (Except.ok [docNoReps "b"] : Except String (List Document)) =
        lazyLoad W8 opts9 1 := rfl
      _ = load W8 opts9 1 := h
      _ = .ok [] := rfl
  simp at h1

/-- Claim C9, amended: whenever the file id list is absent, or present and
non-empty, the sequence `lazyLoad` yields (consumed to exhaustion) equals the
array `load` returns, element by element and in order (error-free folder
listings; arbitrary per-file outcomes); the claim as stated fails only for a
present-but-empty file id list combined with a folder id. -/
theorem claim9_theorem (W : World) (opts : BoxLoaderOptions) (depth : Nat)
    (h : opts.boxFileIds = none ∨
      ∃ ids, opts.boxFileIds = some ids ∧ 0 < ids.length) :
    lazyLoad W opts depth = load W opts depth := by
  obtain ⟨fids, ffid, r, cl⟩ := opts
  cases fids with
  | some ids =>
    rcases h with h | ⟨ids', hids, hlen⟩
    · exact absurd h (by simp)
    · have : ids' = ids := by
        simp only [BoxLoaderOptions.boxFileIds] at hids
        exact (Option.some.injEq _ _ ▸ hids).symm
      subst this
      simp [load, lazyLoad, hlen]
  | none =>
    cases ffid with
    | some f => simp [load, lazyLoad, loadFromFolder_eq_lazy]
    | none => rfl

/-- Claim C9, witness. -/
theorem claim9_witness :
    lazyLoad W8 ⟨none, some "F", false, none⟩ 1 =
      load W8 ⟨none, some "F", false, none⟩ 1 :=
  claim9_theorem W8 ⟨none, some "F", false, none⟩ 1 (Or.inl rfl)

/-- Claim C10: a representation entry whose state is a ready state (success
or viewable) but which carries no truthy info URL makes the resolver return
the Unknown-representation-state diagnostic, with a single listing call and
no info or content fetch issued. -/
theorem claim10_theorem (fileName fileId repType st : String)
    (info : Option RepInfo)
    (hst : st = "success" ∨ st = "viewable")
    (hinfo : truthyInfoUrl ⟨repType, some ⟨some st, none⟩, info⟩ = false)
    (fiv : Except BoxError FileInfo)
    (infoF : Nat → Except BoxError InfoResponse)
    (contF : Nat → Except BoxError ContentResponse) :
    computeContent
      ⟨fiv, fun _ => .ok (listingOf ⟨repType, some ⟨some st, none⟩, info⟩),
       infoF, contF⟩ fileId fileName repType =
      ("[Error: Unknown " ++ repType ++ " representation state for " ++
        fileName ++ "]", ⟨1, 0, 0, []⟩) := by
  rcases hst with h | h <;> subst h <;>
    simp [computeContent, getReadyRepresentation, pollSteps, listingOf,
      isReadyRep, stateFalsy, truthyInfoUrl, effState, repEntryInfoUrl,
      findRep, List.find?, hinfo] <;>
    simp [truthyInfoUrl, effState, repEntryInfoUrl] at hinfo <;> simp [hinfo]

/-- Claim C10, witness. -/
theorem claim10_witness :
    computeContent
      ⟨junkFi,
       fun _ => .ok (listingOf ⟨"extracted_text", some ⟨some "success", none⟩,
         none⟩),
       junkInfoF, junkContF⟩ "9" "a.txt" "extracted_text" =
      ("[Error: Unknown " ++ "extracted_text" ++
        " representation state for " ++ "a.txt" ++ "]", ⟨1, 0, 0, []⟩) :=
  claim10_theorem "a.txt" "9" "extracted_text" "success" none (Or.inl rfl)
    (by decide) junkFi junkInfoF junkContF

end LcBox
